import Mathlib

/-!
Verification development for quicly's congestion-controller interface
(src/include/quicly/cc.h) and its peer connection-ID tracker
(src/include/quicly/received_cid.h).

The repository ships only the two headers; the bodies of the algorithm
callbacks (Reno / CUBIC) and of the received-CID operations live in
translation units that are not part of the source tree.  The dispatcher
`quicly_cc_init` is a `static inline` function whose body is in cc.h and
is embedded verbatim; every other operation is modelled from the
specification, as indicated in the doc comments.

Machine integers are modelled as `Nat` (the operations here only grow
values far below 2^32 / 2^64, and every arithmetic step that could
underflow uses explicit truncated subtraction exactly where the C code
would saturate or where the caller guarantees non-underflow).
-/

namespace Quicly

/-- Largest value of a uint32_t; used by the model as the "+infinity"
slow-start threshold set at initialization. -/
def UINT32_MAX : Nat := 4294967295

/-- Enum value of `CC_RENO_MODIFIED` in `quicly_cc_type_t` (cc.h line 44).
The enum is modelled as a plain `Nat` so that out-of-enumeration values,
which a C caller can produce, are representable and hit the `default`
branch of the dispatch switch. -/
def CC_RENO_MODIFIED : Nat := 0

/-- Enum value of `CC_CUBIC` in `quicly_cc_type_t` (cc.h line 48). -/
def CC_CUBIC : Nat := 1

/-- Embedding of `quicly_cc_conf_t` (cc.h lines 51-56): the congestion
controller type chosen at connection setup. -/
structure quicly_cc_conf_t where
  type : Nat
deriving DecidableEq, Repr

/-- Identity of a concrete congestion-control implementation table
(`quicly_cc_reno_impl` / `quicly_cc_cubic_impl`, cc.h lines 171-172).
Function-pointer tables are modelled by their identity; dispatch is a
match on this tag. -/
inductive CcAlg where
  | reno
  | cubic
deriving DecidableEq, Repr

/-- Reno-private state (cc.h lines 101-106): the stash of acknowledged
bytes accumulated during congestion avoidance. -/
structure RenoState where
  stash : Nat
deriving DecidableEq, Repr

/-- CUBIC-private state (cc.h lines 110-127).  `k` is a double in the C
struct; the model discretizes it to the integer cube root (the claims
verified here do not depend on the fractional part). -/
structure CubicState where
  k : Nat
  w_max : Nat
  w_last_max : Nat
  avoidance_start : Int
deriving DecidableEq, Repr

/-- Embedding of the algorithm-private state union (cc.h lines 97-128).
The C union overlays the two structs; the model carries both fields and
relies on the documented invariant that only the selected algorithm's
half is meaningful. -/
structure CcUnionState where
  reno : RenoState
  cubic : CubicState
deriving DecidableEq, Repr

/-- Embedding of `quicly_cc_t` (cc.h lines 73-149).  `impl` is an
`Option` so that the NULL function-pointer left by `memset` is
representable; `quicly_cc_init` must replace it by a real table. -/
structure quicly_cc_t where
  type : Nat
  impl : Option CcAlg
  cwnd : Nat
  ssthresh : Nat
  recovery_end : Nat
  state : CcUnionState
  cwnd_initial : Nat
  cwnd_exiting_slow_start : Nat
  cwnd_minimum : Nat
  cwnd_maximum : Nat
  num_loss_episodes : Nat
deriving DecidableEq, Repr

/-- The all-zero `quicly_cc_t`, i.e. the state produced by
`memset(cc, 0, sizeof(quicly_cc_t))` (cc.h line 179).  A zeroed function
pointer is `none`. -/
def zero_cc : quicly_cc_t :=
  { type := 0, impl := none, cwnd := 0, ssthresh := 0, recovery_end := 0,
    state := { reno := { stash := 0 },
               cubic := { k := 0, w_max := 0, w_last_max := 0, avoidance_start := 0 } },
    cwnd_initial := 0, cwnd_exiting_slow_start := 0, cwnd_minimum := 0,
    cwnd_maximum := 0, num_loss_episodes := 0 }

/-- The switch statement of `quicly_cc_init` (cc.h lines 182-190):
`CC_CUBIC` selects the CUBIC table, `CC_RENO_MODIFIED` and every other
value (the `default` label) select the Reno table. -/
def select_impl (t : Nat) : CcAlg :=
  if t = CC_CUBIC then CcAlg.cubic else CcAlg.reno

/-- State of the controller at the point of `quicly_cc_init` just before
it delegates to `cc->impl->cc_init` (cc.h lines 179-190): the record is
zeroed, `type` is copied from the configuration, and `impl` is selected
by the switch. -/
def quicly_cc_init_pre (conf : quicly_cc_conf_t) : quicly_cc_t :=
  { zero_cc with type := conf.type, impl := some (select_impl conf.type) }

/-- Modelled from the spec: the shared algorithm `cc_init` callback body
(cc-reno.c / cc-cubic.c are not in the source tree).  Per spec section
4.1 it sets `cwnd = cwnd_initial = initial_cwnd`, `ssthresh = +infinity`
(UINT32_MAX in a uint32_t field) and `recovery_end = 0`; per spec
section 6 the min/max cwnd bounds are connection-level constants passed
in, which the model takes as the explicit parameters `cmin` and `cmax`
since the C prototype does not carry them. -/
def cc_alg_init (cc : quicly_cc_t) (initcwnd cmin cmax : Nat) : quicly_cc_t :=
  { cc with cwnd := initcwnd, cwnd_initial := initcwnd, ssthresh := UINT32_MAX,
            recovery_end := 0, cwnd_minimum := cmin, cwnd_maximum := cmax }

/-- Embedding of `quicly_cc_init` (cc.h lines 177-192): zero the record,
record the type, select the implementation table, then delegate to the
algorithm's own init (the delegated body is modelled from the spec, see
`cc_alg_init`). -/
def quicly_cc_init (conf : quicly_cc_conf_t) (initcwnd cmin cmax : Nat) : quicly_cc_t :=
  cc_alg_init (quicly_cc_init_pre conf) initcwnd cmin cmax

/-- Modelled from the spec: integer cube root, the discretization of the
`cbrt` used by CUBIC's `k = cbrt((w_max - cwnd) / C)` (cc-cubic.c is not
in the source tree).  Returns the largest `m` with `m^3 ≤ n`. -/
def icbrt (n : Nat) : Nat :=
  (List.range (n + 1)).foldl (fun acc m => if m * m * m ≤ n then max acc m else acc) 0

/-- Modelled from the spec: the Reno-modified `cc_on_acked` callback
(cc-reno.c is not in the source tree).  Spec section 4.1: an ack with
packet number at most `recovery_end` applies no growth; in slow start
the window grows by `bytes` capped at `cwnd_maximum`; in congestion
avoidance `bytes` accumulates into the stash and once the stash reaches
the window-proportional threshold the window grows by one
max-payload-size unit with the excess kept in the stash. -/
def reno_on_acked (cc : quicly_cc_t) (bytes largest_acked max_udp_payload_size : Nat) :
    quicly_cc_t :=
  if largest_acked ≤ cc.recovery_end then cc
  else if cc.cwnd < cc.ssthresh then
    { cc with cwnd := min (cc.cwnd + bytes) cc.cwnd_maximum }
  else
    let exiting := if cc.cwnd_exiting_slow_start = 0 then cc.cwnd
                   else cc.cwnd_exiting_slow_start
    let stash := cc.state.reno.stash + bytes
    if cc.cwnd ≤ stash then
      { cc with cwnd := min (cc.cwnd + max_udp_payload_size) cc.cwnd_maximum,
                cwnd_exiting_slow_start := exiting,
                state := { cc.state with reno := { stash := stash - cc.cwnd } } }
    else
      { cc with cwnd_exiting_slow_start := exiting,
                state := { cc.state with reno := { stash := stash } } }

/-- Modelled from the spec: the Reno-modified `cc_on_lost` callback
(cc-reno.c is not in the source tree).  Spec section 4.1: a loss with
packet number at most `recovery_end` is ignored; otherwise
`recovery_end = next_pn - 1`, `cwnd = max(cwnd_minimum, cwnd * 0.7)`
(the modified beta), `ssthresh = cwnd`, and the loss-episode counter is
bumped. -/
def reno_on_lost (cc : quicly_cc_t) (bytes lost_pn next_pn max_udp_payload_size : Nat) :
    quicly_cc_t :=
  if lost_pn ≤ cc.recovery_end then cc
  else
    let newcwnd := max cc.cwnd_minimum (7 * cc.cwnd / 10)
    { cc with recovery_end := next_pn - 1,
              num_loss_episodes := cc.num_loss_episodes + 1,
              cwnd := newcwnd,
              ssthresh := newcwnd }

/-- Modelled from the spec: the Reno-modified
`cc_on_persistent_congestion` callback (cc-reno.c is not in the source
tree).  Spec section 4.1: reset `cwnd` and `ssthresh` to the minimum
window, clear the algorithm-private accumulator, and clear the recovery
fence so subsequent acks immediately resume slow start. -/
def reno_on_persistent_congestion (cc : quicly_cc_t) : quicly_cc_t :=
  { cc with cwnd := cc.cwnd_minimum, ssthresh := cc.cwnd_minimum,
            recovery_end := 0,
            state := { cc.state with reno := { stash := 0 } } }

/-- Modelled from the spec: CUBIC's window curve
`W_cubic(t) = w_max + C * (t - k)^3` with `C = 0.4` (RFC 8312),
rendered over the integers as `w_max + 4 * (t - k)^3 / 10`. -/
def cubic_w_cubic (w_max k : Nat) (t : Int) : Int :=
  (w_max : Int) + 4 * (t - (k : Int)) ^ 3 / 10

/-- Modelled from the spec: the TCP-friendly Reno-equivalent estimate
used by CUBIC's friendly-region check, `w_max * beta` plus a linear
term `3 * (1 - beta) / (1 + beta)` segments per time unit with
`beta = 0.7` (so the slope factor is 9/17), rendered over the
integers. -/
def cubic_w_est (w_max : Nat) (t : Int) (max_udp_payload_size : Nat) : Int :=
  (7 * w_max : Nat) / 10 + 9 * t * (max_udp_payload_size : Int) / 17

/-- Modelled from the spec: the CUBIC `cc_on_acked` callback (cc-cubic.c
is not in the source tree).  Spec section 4.1: an ack fenced by
`recovery_end` applies no growth; slow start grows by `bytes` capped at
`cwnd_maximum`; congestion avoidance sets the window to the larger of
the cubic curve and the TCP-friendly estimate, clamped into
[cwnd_minimum, cwnd_maximum] per the spec's window-bounds invariant. -/
def cubic_on_acked (cc : quicly_cc_t) (now : Int)
    (bytes largest_acked max_udp_payload_size : Nat) : quicly_cc_t :=
  if largest_acked ≤ cc.recovery_end then cc
  else if cc.cwnd < cc.ssthresh then
    { cc with cwnd := min (cc.cwnd + bytes) cc.cwnd_maximum }
  else
    let exiting := if cc.cwnd_exiting_slow_start = 0 then cc.cwnd
                   else cc.cwnd_exiting_slow_start
    let t := now - cc.state.cubic.avoidance_start
    let target := max (cubic_w_cubic cc.state.cubic.w_max cc.state.cubic.k t)
                      (cubic_w_est cc.state.cubic.w_max t max_udp_payload_size)
    { cc with cwnd := min cc.cwnd_maximum (max cc.cwnd_minimum target.toNat),
              cwnd_exiting_slow_start := exiting }

/-- Modelled from the spec: the CUBIC `cc_on_lost` callback (cc-cubic.c
is not in the source tree).  Spec section 4.1: a loss fenced by
`recovery_end` is ignored; otherwise fast convergence updates
`w_max`/`w_last_max` (if `cwnd < w_last_max` then `w_last_max = cwnd`
and `w_max = cwnd * (1 + beta) / 2`, else both become `cwnd`), the
window is reduced to `max(cwnd_minimum, cwnd * beta)` with `beta = 0.7`,
`k` is recomputed as `cbrt((w_max - cwnd) / C)` with `C = 0.4`,
`avoidance_start` is reset to the loss time, `ssthresh = cwnd`, and the
loss-episode counter is bumped. -/
def cubic_on_lost (cc : quicly_cc_t) (now : Int)
    (bytes : Nat) (lost_pn next_pn max_udp_payload_size : Nat) : quicly_cc_t :=
  if lost_pn ≤ cc.recovery_end then cc
  else
    let cw := cc.cwnd
    let wpair := if cw < cc.state.cubic.w_last_max
                 then (17 * cw / 20, cw)
                 else (cw, cw)
    let newcwnd := max cc.cwnd_minimum (7 * cw / 10)
    { cc with recovery_end := next_pn - 1,
              num_loss_episodes := cc.num_loss_episodes + 1,
              cwnd := newcwnd,
              ssthresh := newcwnd,
              state := { cc.state with
                         cubic := { k := icbrt (10 * (wpair.1 - newcwnd) / 4),
                                    w_max := wpair.1,
                                    w_last_max := wpair.2,
                                    avoidance_start := now } } }

/-- Modelled from the spec: the CUBIC `cc_on_persistent_congestion`
callback (cc-cubic.c is not in the source tree).  Same shape as the Reno
one: minimum window, minimum ssthresh, cleared private accumulators,
cleared recovery fence. -/
def cubic_on_persistent_congestion (cc : quicly_cc_t) : quicly_cc_t :=
  { cc with cwnd := cc.cwnd_minimum, ssthresh := cc.cwnd_minimum,
            recovery_end := 0,
            state := { cc.state with
                       cubic := { k := 0, w_max := 0, w_last_max := 0,
                                  avoidance_start := 0 } } }

/-- An externally observed congestion event, as supplied by the
loss-detection engine: an acknowledgment, a loss, or a
persistent-congestion determination. -/
inductive CcEvent where
  | acked (now : Int) (bytes largest_acked max_udp_payload_size : Nat)
  | lost (now : Int) (bytes lost_pn next_pn max_udp_payload_size : Nat)
  | persistent
deriving DecidableEq, Repr

/-- Dispatch of one congestion event through the controller's selected
implementation table, mirroring a call through `cc->impl`.  A zeroed
(`none`) table dispatches nowhere. -/
def ccStep (cc : quicly_cc_t) (e : CcEvent) : quicly_cc_t :=
  match cc.impl with
  | none => cc
  | some CcAlg.reno =>
    match e with
    | CcEvent.acked _ b pn mu => reno_on_acked cc b pn mu
    | CcEvent.lost _ b lp np mu => reno_on_lost cc b lp np mu
    | CcEvent.persistent => reno_on_persistent_congestion cc
  | some CcAlg.cubic =>
    match e with
    | CcEvent.acked now b pn mu => cubic_on_acked cc now b pn mu
    | CcEvent.lost now b lp np mu => cubic_on_lost cc now b lp np mu
    | CcEvent.persistent => cubic_on_persistent_congestion cc

/-- The window-bounds invariant of spec section 3:
`cwnd_minimum ≤ cwnd ≤ cwnd_maximum`. -/
def ccInv (cc : quicly_cc_t) : Prop :=
  cc.cwnd_minimum ≤ cc.cwnd ∧ cc.cwnd ≤ cc.cwnd_maximum

instance (cc : quicly_cc_t) : Decidable (ccInv cc) := by
  unfold ccInv; infer_instance

/-- Modelled from the spec: `quicly_cc_calc_initial_cwnd` (cc.c is not
in the source tree).  Spec section 4.1: the standard QUIC initial
window, mirroring RFC 9002 -- the smaller of ten times the maximum
datagram size and the fixed byte cap, itself floored by twice the
datagram size: `min(10 * mps, max(2 * mps, 14720))`. -/
def quicly_cc_calc_initial_cwnd (max_udp_payload_size : Nat) : Nat :=
  min (10 * max_udp_payload_size) (max (2 * max_udp_payload_size) 14720)

/-- Modelled from the spec: `QUICLY_LOCAL_ACTIVE_CONNECTION_ID_LIMIT`
(constants.h is not in the source tree); the spec uses 4 as the
locally advertised active-connection-ID limit. -/
def QUICLY_LOCAL_ACTIVE_CONNECTION_ID_LIMIT : Nat := 4

/-- Modelled from the spec: the specific transport error code reported
when the peer exceeds the active-CID limit (constants.h is not in the
source tree).  QUIC's CONNECTION_ID_LIMIT_ERROR (0x9) offset into
quicly's transport-error space; the claims only rely on it being
nonzero. -/
def QUICLY_TRANSPORT_ERROR_CONNECTION_ID_LIMIT : Nat := 0x10009

/-- Embedding of `struct st_quicly_received_cid_t` (received_cid.h lines
38-53): one slot of the peer-CID table.  The CID bytes (together with
their length) and the stateless reset token are modelled as byte
lists. -/
structure quicly_received_cid_t where
  is_active : Bool
  sequence : Nat
  cid : List Nat
  stateless_reset_token : List Nat
deriving DecidableEq, Repr

/-- A cleared (free) slot: the state a slot takes when it is retired or
at initialization (spec section 4.2: "clear all slots to
inactive/unreserved"). -/
def clearedSlot : quicly_received_cid_t :=
  { is_active := false, sequence := 0, cid := [], stateless_reset_token := [] }

/-- Embedding of `struct st_quicly_received_cid_set_t` (received_cid.h
lines 58-68).  `cids` is the fixed-capacity slot array (length
`QUICLY_LOCAL_ACTIVE_CONNECTION_ID_LIMIT`; slot 0 holds the in-use
CID).  `smallest_retired` is how the model renders the tracker's
knowledge of retired sequences: the spec's register step 1 consults
"the smallest sequence already known to have been retired", which the C
struct encodes through reserved slots whose maintenance the spec leaves
open, so the model tracks that quantity directly. -/
structure quicly_received_cid_set_t where
  cids : List quicly_received_cid_t
  largest_sequence_expected : Nat
  smallest_retired : Option Nat
deriving DecidableEq, Repr

/-- Modelled from the spec: `quicly_received_cid_init` (the
implementing translation unit is not in the source tree).  Spec section
4.2: all slots inactive/unreserved, `largest_sequence_expected = 0`. -/
def quicly_received_cid_init : quicly_received_cid_set_t :=
  { cids := List.replicate QUICLY_LOCAL_ACTIVE_CONNECTION_ID_LIMIT clearedSlot,
    largest_sequence_expected := 0,
    smallest_retired := none }

/-- Does some active slot already hold this sequence?  (Register step 1,
the duplicate test.) -/
def isDuplicate (set : quicly_received_cid_set_t) (sequence : Nat) : Bool :=
  set.cids.any (fun c => c.is_active && c.sequence == sequence)

/-- Is this sequence below the smallest sequence already known to have
been retired?  (Register step 1, the staleness test.) -/
def isStale (set : quicly_received_cid_set_t) (sequence : Nat) : Bool :=
  match set.smallest_retired with
  | none => false
  | some m => decide (sequence < m)

/-- Is some slot free (not holding an active CID)?  (Register step 2
tests for the absence of such a slot.) -/
def hasFreeSlot (set : quicly_received_cid_set_t) : Bool :=
  set.cids.any (fun c => !c.is_active)

/-- Occupy the lowest-index non-active slot with the given registration
(register step 3). -/
def occupyFirstFree (cids : List quicly_received_cid_t)
    (sequence : Nat) (cid srt : List Nat) : List quicly_received_cid_t :=
  match cids with
  | [] => []
  | c :: rest =>
    if c.is_active then c :: occupyFirstFree rest sequence cid srt
    else { is_active := true, sequence := sequence, cid := cid,
           stateless_reset_token := srt } :: rest

/-- Modelled from the spec: `quicly_received_cid_register`
(received_cid.h lines 71-76; the implementing translation unit is not
in the source tree).  Spec section 4.2: a stale or duplicate sequence
is absorbed as a success without mutation; with the table full of
active CIDs the registration is a protocol violation reported as a
transport error without mutation; otherwise the lowest-index free slot
is occupied and `largest_sequence_expected` is raised to the sequence
if larger.  Returns the C `int` result paired with the updated set. -/
def quicly_received_cid_register (set : quicly_received_cid_set_t)
    (sequence : Nat) (cid srt : List Nat) : Nat × quicly_received_cid_set_t :=
  if isStale set sequence || isDuplicate set sequence then (0, set)
  else if !hasFreeSlot set then (QUICLY_TRANSPORT_ERROR_CONNECTION_ID_LIMIT, set)
  else (0, { set with cids := occupyFirstFree set.cids sequence cid srt,
                      largest_sequence_expected :=
                        max set.largest_sequence_expected sequence })

/-- Record one more retired sequence into the tracker's
smallest-retired knowledge. -/
def updMinRetired (o : Option Nat) (s : Nat) : Option Nat :=
  match o with
  | none => some s
  | some m => some (min m s)

/-- The other active slot with the smallest sequence, if any: the
replacement candidate when the in-use CID is retired (spec section 4.2
suggests promoting the lowest remaining sequence). -/
def findMinActive (cids : List quicly_received_cid_t) :
    Option quicly_received_cid_t :=
  match cids with
  | [] => none
  | c :: rest =>
    match findMinActive rest with
    | none => if c.is_active then some c else none
    | some b => if c.is_active && c.sequence < b.sequence then some c else some b

/-- Clear the first active slot holding the given sequence, leaving the
list length (the table capacity) unchanged. -/
def clearFirstSeq (cids : List quicly_received_cid_t) (sequence : Nat) :
    List quicly_received_cid_t :=
  match cids with
  | [] => []
  | c :: rest =>
    if c.is_active && c.sequence == sequence then clearedSlot :: rest
    else c :: clearFirstSeq rest sequence

/-- Modelled from the spec: `quicly_received_cid_unregister`
(received_cid.h lines 77-81; the implementing translation unit is not
in the source tree).  Spec section 4.2: retiring the in-use CID (slot
0) promotes the remaining active slot with the lowest sequence into
slot 0, and fails (returns 1, mutating nothing) when no other active
CID exists; retiring any other active sequence clears its slot; an
unknown sequence fails.  Returns the C `int` result paired with the
updated set. -/
def quicly_received_cid_unregister (set : quicly_received_cid_set_t)
    (sequence : Nat) : Nat × quicly_received_cid_set_t :=
  match set.cids with
  | [] => (1, set)
  | c0 :: rest =>
    if c0.is_active && c0.sequence == sequence then
      match findMinActive rest with
      | none => (1, set)
      | some b =>
        (0, { set with cids := b :: clearFirstSeq rest b.sequence,
                       smallest_retired := updMinRetired set.smallest_retired sequence })
    else if rest.any (fun c => c.is_active && c.sequence == sequence) then
      (0, { set with cids := c0 :: clearFirstSeq rest sequence,
                     smallest_retired := updMinRetired set.smallest_retired sequence })
    else (1, set)

/-- The slot-array scan of `unregister_prior_to`: retire every active
slot with sequence below the bound, collecting the retired sequences in
ascending slot-index order.  Returns the updated slots and the
collected sequences. -/
def retireScan (n : Nat) (cids : List quicly_received_cid_t) :
    List quicly_received_cid_t × List Nat :=
  match cids with
  | [] => ([], [])
  | c :: rest =>
    let r := retireScan n rest
    if c.is_active && decide (c.sequence < n) then
      (clearedSlot :: r.1, c.sequence :: r.2)
    else (c :: r.1, r.2)

/-- Apply the in-use-replacement rule after a bulk retirement: if slot 0
no longer holds an active CID and another active slot exists, promote
the active slot with the lowest sequence into slot 0. -/
def promoteIfNeeded (cids : List quicly_received_cid_t) :
    List quicly_received_cid_t :=
  match cids with
  | [] => []
  | c0 :: rest =>
    if c0.is_active then c0 :: rest
    else
      match findMinActive rest with
      | none => c0 :: rest
      | some b => b :: clearFirstSeq rest b.sequence

/-- Modelled from the spec: `quicly_received_cid_unregister_prior_to`
(received_cid.h lines 82-89; the implementing translation unit is not
in the source tree).  Spec section 4.2: scan all active slots, retire
every slot with sequence below the bound (applying the same
in-use-replacement rule as `unregister` for slot 0), write the retired
sequences packed from index 0 of the output array in ascending
slot-index order, and return their count.  The C out-parameter array
and the `size_t` result are returned as the count paired with the
sequence list, paired with the updated set. -/
def quicly_received_cid_unregister_prior_to (set : quicly_received_cid_set_t)
    (seq_unreg_prior_to : Nat) :
    (Nat × List Nat) × quicly_received_cid_set_t :=
  let r := retireScan seq_unreg_prior_to set.cids
  ((r.2.length, r.2),
   { set with cids := promoteIfNeeded r.1,
              smallest_retired := r.2.foldl updMinRetired set.smallest_retired })

/-- Membership of a sequence among the active slots of a slot list. -/
def activeSeqIn (cids : List quicly_received_cid_t) (s : Nat) : Prop :=
  ∃ c ∈ cids, c.is_active = true ∧ c.sequence = s

instance (cids : List quicly_received_cid_t) (s : Nat) :
    Decidable (activeSeqIn cids s) := by
  unfold activeSeqIn; infer_instance

/-- Number of active slots in the table. -/
def countActive (cids : List quicly_received_cid_t) : Nat :=
  (cids.filter (fun c => c.is_active)).length

/-- Register a whole list of sequences in order (all with the same CID
bytes and token), collecting the per-call result codes. -/
def registerAll (set : quicly_received_cid_set_t) (seqs : List Nat)
    (cid srt : List Nat) : List Nat × quicly_received_cid_set_t :=
  match seqs with
  | [] => ([], set)
  | s :: rest =>
    let r := quicly_received_cid_register set s cid srt
    let r2 := registerAll r.2 rest cid srt
    (r.1 :: r2.1, r2.2)

/-- An active slot holding sequence `s` with an arbitrary concrete CID
and token, used by concrete states. -/
def mkCidSlot (s : Nat) : quicly_received_cid_t :=
  { is_active := true, sequence := s, cid := [s],
    stateless_reset_token := List.replicate 16 0 }

/-- Concrete tracker state with active sequences 1, 2, 3, 5 (the spec's
bulk-retirement example). -/
def sampleCidSet : quicly_received_cid_set_t :=
  { cids := [mkCidSlot 1, mkCidSlot 2, mkCidSlot 3, mkCidSlot 5],
    largest_sequence_expected := 5, smallest_retired := none }

/-- Concrete tracker state whose in-use slot holds sequence 7 with one
other active CID (sequence 9). -/
def sampleCidSet2 : quicly_received_cid_set_t :=
  { cids := [mkCidSlot 7, mkCidSlot 9, clearedSlot, clearedSlot],
    largest_sequence_expected := 9, smallest_retired := none }

/-- Concrete tracker state whose in-use slot holds sequence 7 and no
other active CID. -/
def sampleCidSet3 : quicly_received_cid_set_t :=
  { cids := [mkCidSlot 7, clearedSlot, clearedSlot, clearedSlot],
    largest_sequence_expected := 7, smallest_retired := none }

/-- Concrete tracker state that has already retired sequence 3 (so
sequences below 3 are stale). -/
def sampleStaleSet : quicly_received_cid_set_t :=
  { cids := [mkCidSlot 4, clearedSlot, clearedSlot, clearedSlot],
    largest_sequence_expected := 4, smallest_retired := some 3 }

/-- Concrete Reno-modified controller used by witnesses: initial window
1,000,000 bytes, minimum 2,400, maximum 2,000,000. -/
def sampleRenoCC : quicly_cc_t :=
  quicly_cc_init ⟨CC_RENO_MODIFIED⟩ 1000000 2400 2000000

/-- Concrete controller inside a recovery episode (recovery_end = 9),
used by witnesses. -/
def sampleFencedCC : quicly_cc_t := reno_on_lost sampleRenoCC 1200 5 10 1200

/-- Concrete CUBIC controller after a first congestion event: window
140, `w_max = w_last_max = 200`, fence at packet 9. -/
def sampleCubicCC : quicly_cc_t :=
  cubic_on_lost (quicly_cc_init ⟨CC_CUBIC⟩ 200 20 1000) 0 100 1 10 1200

/-! ### Supporting lemmas for the peer-CID tracker -/

theorem activeSeqIn_cons (c : quicly_received_cid_t)
    (l : List quicly_received_cid_t) (s : Nat) :
    activeSeqIn (c :: l) s ↔
      (c.is_active = true ∧ c.sequence = s) ∨ activeSeqIn l s := by
  unfold activeSeqIn
  constructor
  · rintro ⟨d, hd, hda, hds⟩
    rcases List.mem_cons.mp hd with rfl | hd2
    · exact Or.inl ⟨hda, hds⟩
    · exact Or.inr ⟨d, hd2, hda, hds⟩
  · rintro (⟨hca, hcs⟩ | ⟨d, hd, hda, hds⟩)
    · exact ⟨c, List.mem_cons_self _ _, hca, hcs⟩
    · exact ⟨d, List.mem_cons_of_mem _ hd, hda, hds⟩

theorem activeSeqIn_nil (s : Nat) : ¬ activeSeqIn [] s := by
  rintro ⟨d, hd, _⟩
  simp at hd

theorem findMinActive_mem (cids : List quicly_received_cid_t)
    (b : quicly_received_cid_t) (h : findMinActive cids = some b) :
    b ∈ cids ∧ b.is_active = true := by
  induction cids generalizing b with
  | nil => simp [findMinActive] at h
  | cons c rest ih =>
    unfold findMinActive at h
    split at h
    · split at h
      · rename_i hc
        cases h
        exact ⟨List.mem_cons_self _ _, hc⟩
      · simp at h
    · rename_i b2 hr
      obtain ⟨hb2mem, hb2act⟩ := ih b2 hr
      split at h
      · rename_i hcond
        cases h
        exact ⟨List.mem_cons_self _ _, ((Bool.and_eq_true _ _).mp hcond).1⟩
      · cases h
        exact ⟨List.mem_cons_of_mem _ hb2mem, hb2act⟩

theorem findMinActive_none (cids : List quicly_received_cid_t)
    (h : findMinActive cids = none) : ∀ c ∈ cids, c.is_active = false := by
  induction cids with
  | nil => simp
  | cons c rest ih =>
    unfold findMinActive at h
    split at h
    · rename_i hr
      split at h
      · simp at h
      · rename_i hc
        intro d hd
        rcases List.mem_cons.mp hd with rfl | hd2
        · simpa using hc
        · exact ih hr d hd2
    · split at h <;> simp at h

theorem clearFirstSeq_activeSeq (cids : List quicly_received_cid_t)
    (q s : Nat) :
    (activeSeqIn (clearFirstSeq cids q) s → activeSeqIn cids s) ∧
    (s ≠ q → activeSeqIn cids s → activeSeqIn (clearFirstSeq cids q) s) := by
  induction cids with
  | nil => exact ⟨fun h => h, fun _ h => h⟩
  | cons c rest ih =>
    unfold clearFirstSeq
    by_cases hc : (c.is_active && c.sequence == q) = true
    · rw [if_pos hc]
      obtain ⟨hca, hcs⟩ := (Bool.and_eq_true _ _).mp hc
      have hcq : c.sequence = q := beq_iff_eq.mp hcs
      constructor
      · intro h
        rcases (activeSeqIn_cons _ _ _).mp h with ⟨hda, _⟩ | h2
        · simp [clearedSlot] at hda
        · exact (activeSeqIn_cons _ _ _).mpr (Or.inr h2)
      · intro hne h
        rcases (activeSeqIn_cons _ _ _).mp h with ⟨_, hds⟩ | h2
        · exact absurd (hds ▸ hcq) hne
        · exact (activeSeqIn_cons _ _ _).mpr (Or.inr h2)
    · rw [if_neg hc]
      constructor
      · intro h
        rcases (activeSeqIn_cons _ _ _).mp h with h1 | h2
        · exact (activeSeqIn_cons _ _ _).mpr (Or.inl h1)
        · exact (activeSeqIn_cons _ _ _).mpr (Or.inr (ih.1 h2))
      · intro hne h
        rcases (activeSeqIn_cons _ _ _).mp h with h1 | h2
        · exact (activeSeqIn_cons _ _ _).mpr (Or.inl h1)
        · exact (activeSeqIn_cons _ _ _).mpr (Or.inr (ih.2 hne h2))

theorem promoteIfNeeded_activeSeq (cids : List quicly_received_cid_t) (s : Nat) :
    activeSeqIn (promoteIfNeeded cids) s ↔ activeSeqIn cids s := by
  cases cids with
  | nil => exact Iff.rfl
  | cons c0 rest =>
    unfold promoteIfNeeded
    dsimp only
    by_cases h0 : c0.is_active
    · rw [if_pos h0]
    · rw [if_neg h0]
      cases hm : findMinActive rest with
      | none => exact Iff.rfl
      | some b =>
        obtain ⟨hbmem, hbact⟩ := findMinActive_mem rest b hm
        rw [activeSeqIn_cons, activeSeqIn_cons]
        constructor
        · rintro (⟨hba, hbs⟩ | h2)
          · exact Or.inr ⟨b, hbmem, hba, hbs⟩
          · exact Or.inr ((clearFirstSeq_activeSeq rest b.sequence s).1 h2)
        · rintro (⟨hca, _⟩ | h2)
          · exact absurd hca h0
          · by_cases hsb : s = b.sequence
            · exact Or.inl ⟨hbact, hsb.symm⟩
            · exact Or.inr ((clearFirstSeq_activeSeq rest b.sequence s).2 hsb h2)

theorem retireScan_snd (n : Nat) (cids : List quicly_received_cid_t) :
    (retireScan n cids).2
      = (cids.filter (fun c => c.is_active && decide (c.sequence < n))).map
          (fun c => c.sequence) := by
  induction cids with
  | nil => rfl
  | cons c rest ih =>
    unfold retireScan
    by_cases hc : (c.is_active && decide (c.sequence < n)) = true
    · rw [if_pos hc]
      simp [List.filter_cons, hc, ih]
    · rw [if_neg hc]
      have hcf : (c.is_active && decide (c.sequence < n)) = false := by
        simpa using hc
      simp [List.filter_cons, hcf, ih]

theorem retireScan_fst_activeSeq (n : Nat) (cids : List quicly_received_cid_t)
    (s : Nat) :
    activeSeqIn (retireScan n cids).1 s ↔ (activeSeqIn cids s ∧ n ≤ s) := by
  induction cids with
  | nil =>
    simp only [retireScan]
    exact ⟨fun h => absurd h (activeSeqIn_nil s), fun ⟨h, _⟩ => absurd h (activeSeqIn_nil s)⟩
  | cons c rest ih =>
    unfold retireScan
    by_cases hc : (c.is_active && decide (c.sequence < n)) = true
    · rw [if_pos hc]
      obtain ⟨hca, hcs⟩ := (Bool.and_eq_true _ _).mp hc
      have hlt : c.sequence < n := of_decide_eq_true hcs
      rw [activeSeqIn_cons, activeSeqIn_cons, ih]
      constructor
      · rintro (⟨hda, _⟩ | ⟨h2, hn⟩)
        · simp [clearedSlot] at hda
        · exact ⟨Or.inr h2, hn⟩
      · rintro ⟨⟨_, hds⟩ | h2, hn⟩
        · exact absurd hn (by omega)
        · exact Or.inr ⟨h2, hn⟩
    · rw [if_neg hc]
      rw [activeSeqIn_cons, activeSeqIn_cons, ih]
      constructor
      · rintro (⟨hca, hcs⟩ | ⟨h2, hn⟩)
        · refine ⟨Or.inl ⟨hca, hcs⟩, ?_⟩
          have : ¬ (c.sequence < n) := by
            intro hlt
            exact hc ((Bool.and_eq_true _ _).mpr ⟨hca, decide_eq_true hlt⟩)
          omega
        · exact ⟨Or.inr h2, hn⟩
      · rintro ⟨⟨hca, hcs⟩ | h2, hn⟩
        · exact Or.inl ⟨hca, hcs⟩
        · exact Or.inr ⟨h2, hn⟩

/-! ### Invariant-preservation lemmas for the congestion controller -/

theorem reno_on_acked_inv (cc : quicly_cc_t) (b pn mu : Nat) (h : ccInv cc) :
    ccInv (reno_on_acked cc b pn mu) := by
  obtain ⟨h1, h2⟩ := h
  unfold reno_on_acked ccInv
  split_ifs <;> (try simp) <;> (try split_ifs) <;> (try simp) <;> omega

theorem reno_on_lost_inv (cc : quicly_cc_t) (b lp np mu : Nat) (h : ccInv cc) :
    ccInv (reno_on_lost cc b lp np mu) := by
  obtain ⟨h1, h2⟩ := h
  unfold reno_on_lost ccInv
  split_ifs <;> (try simp) <;> omega

theorem reno_on_persistent_congestion_inv (cc : quicly_cc_t) (h : ccInv cc) :
    ccInv (reno_on_persistent_congestion cc) := by
  obtain ⟨h1, h2⟩ := h
  unfold reno_on_persistent_congestion ccInv
  simp
  omega

theorem cubic_on_acked_inv (cc : quicly_cc_t) (now : Int) (b pn mu : Nat)
    (h : ccInv cc) : ccInv (cubic_on_acked cc now b pn mu) := by
  obtain ⟨h1, h2⟩ := h
  unfold cubic_on_acked ccInv
  split_ifs <;> (try simp) <;> omega

theorem cubic_on_lost_inv (cc : quicly_cc_t) (now : Int) (b lp np mu : Nat)
    (h : ccInv cc) : ccInv (cubic_on_lost cc now b lp np mu) := by
  obtain ⟨h1, h2⟩ := h
  unfold cubic_on_lost ccInv
  split_ifs <;> (try simp) <;> omega

theorem cubic_on_persistent_congestion_inv (cc : quicly_cc_t) (h : ccInv cc) :
    ccInv (cubic_on_persistent_congestion cc) := by
  obtain ⟨h1, h2⟩ := h
  unfold cubic_on_persistent_congestion ccInv
  simp
  omega

theorem ccStep_inv (cc : quicly_cc_t) (e : CcEvent) (h : ccInv cc) :
    ccInv (ccStep cc e) := by
  unfold ccStep
  split
  · exact h
  · split
    · exact reno_on_acked_inv _ _ _ _ h
    · exact reno_on_lost_inv _ _ _ _ _ h
    · exact reno_on_persistent_congestion_inv _ h
  · split
    · exact cubic_on_acked_inv _ _ _ _ _ h
    · exact cubic_on_lost_inv _ _ _ _ _ _ h
    · exact cubic_on_persistent_congestion_inv _ h

theorem ccRun_inv (l : List CcEvent) (cc : quicly_cc_t) (h : ccInv cc) :
    ccInv (l.foldl ccStep cc) := by
  induction l generalizing cc with
  | nil => exact h
  | cons e t ih => exact ih _ (ccStep_inv _ _ h)

/-! ### Claim theorems for the congestion controller -/

/-- C1: for every sequence of on_acked, on_lost, and
on_persistent_congestion events applied to an initialized
CongestionController (whose configured initial window lies within the
configured bounds), the congestion window satisfies
`cwnd_minimum ≤ cwnd ≤ cwnd_maximum` after every operation. -/
theorem C1_cwnd_bounds (conf : quicly_cc_conf_t) (initcwnd cmin cmax : Nat)
    (h1 : cmin ≤ initcwnd) (h2 : initcwnd ≤ cmax) (l : List CcEvent) :
    ccInv (l.foldl ccStep (quicly_cc_init conf initcwnd cmin cmax)) := by
  apply ccRun_inv
  unfold ccInv quicly_cc_init cc_alg_init quicly_cc_init_pre
  exact ⟨h1, h2⟩

/-- Witness for C1: a concrete controller and event sequence exercising
loss, ack, and persistent-congestion steps. -/
theorem C1_cwnd_bounds_witness :
    ccInv ([CcEvent.lost 0 1200 3 10 1200,
            CcEvent.acked 1 600 12 1200,
            CcEvent.persistent,
            CcEvent.acked 2 600 13 1200].foldl ccStep
      (quicly_cc_init ⟨CC_CUBIC⟩ 12000 2400 20000)) :=
  C1_cwnd_bounds ⟨CC_CUBIC⟩ 12000 2400 20000 (by decide) (by decide) _

/-- C2: for a Reno-modified controller, an on_lost call whose lost_pn
exceeds recovery_end sets `cwnd` to `max(cwnd_minimum, cwnd * 0.7)`
(integer rendering `7 * cwnd / 10`) and sets `ssthresh` to the new
`cwnd`; with `cwnd = 1,000,000` bytes the resulting window is
`max(cwnd_minimum, 700,000)`. -/
theorem C2_reno_loss_reduction (cc : quicly_cc_t) (bytes lost_pn next_pn mu : Nat)
    (h : cc.recovery_end < lost_pn) :
    (reno_on_lost cc bytes lost_pn next_pn mu).cwnd
        = max cc.cwnd_minimum (7 * cc.cwnd / 10) ∧
    (reno_on_lost cc bytes lost_pn next_pn mu).ssthresh
        = (reno_on_lost cc bytes lost_pn next_pn mu).cwnd ∧
    (cc.cwnd = 1000000 →
      (reno_on_lost cc bytes lost_pn next_pn mu).cwnd
          = max cc.cwnd_minimum 700000) := by
  unfold reno_on_lost
  rw [if_neg (by omega)]
  refine ⟨rfl, rfl, fun hc => ?_⟩
  simp [hc]

/-- Witness for C2: the reduction applied to the concrete controller
with `cwnd = 1,000,000`. -/
theorem C2_reno_loss_reduction_witness :
    (reno_on_lost sampleRenoCC 1200 5 10 1200).cwnd
        = max sampleRenoCC.cwnd_minimum 700000 :=
  (C2_reno_loss_reduction sampleRenoCC 1200 5 10 1200 (by decide)).2.2 (by decide)

/-- C3: once a congestion event has set `recovery_end = E`, any
on_acked or on_lost call with packet number at most E leaves the
controller completely unchanged (no reduction, no growth), for both
algorithms; and an on_lost with packet number above E is what moves the
recovery fence (to `next_pn - 1`). -/
theorem C3_recovery_fencing (cc : quicly_cc_t) (now : Int)
    (bytes pn next_pn mu : Nat) (h : pn ≤ cc.recovery_end) :
    reno_on_acked cc bytes pn mu = cc ∧
    reno_on_lost cc bytes pn next_pn mu = cc ∧
    cubic_on_acked cc now bytes pn mu = cc ∧
    cubic_on_lost cc now bytes pn next_pn mu = cc ∧
    (∀ pn2 next2, cc.recovery_end < pn2 →
      (reno_on_lost cc bytes pn2 next2 mu).recovery_end = next2 - 1 ∧
      (cubic_on_lost cc now bytes pn2 next2 mu).recovery_end = next2 - 1) := by
  refine ⟨?_, ?_, ?_, ?_, fun pn2 next2 h2 => ⟨?_, ?_⟩⟩
  · unfold reno_on_acked; rw [if_pos h]
  · unfold reno_on_lost; rw [if_pos h]
  · unfold cubic_on_acked; rw [if_pos h]
  · unfold cubic_on_lost; rw [if_pos h]
  · unfold reno_on_lost; rw [if_neg (by omega)]
  · unfold cubic_on_lost; rw [if_neg (by omega)]

/-- Witness for C3: with the fence at packet 9, an ack and a loss at
packet 3 mutate nothing, and a loss at packet 20 moves the fence. -/
theorem C3_recovery_fencing_witness :
    reno_on_acked sampleFencedCC 600 3 1200 = sampleFencedCC ∧
    (reno_on_lost sampleFencedCC 600 20 25 1200).recovery_end = 25 - 1 :=
  ⟨(C3_recovery_fencing sampleFencedCC 0 600 3 25 1200 (by decide)).1,
   ((C3_recovery_fencing sampleFencedCC 0 600 3 25 1200 (by decide)).2.2.2.2
      20 25 (by decide)).1⟩

/-- C8: `quicly_cc_calc_initial_cwnd` is a pure total function of the
maximum UDP payload size, computing the RFC 9002 initial window
`min(10 * mps, max(2 * mps, 14720))`; at 1200 it equals
`min(10 * 1200, 14720) = 12000`. -/
theorem C8_calc_initial_cwnd :
    quicly_cc_calc_initial_cwnd 1200 = min (10 * 1200) 14720 ∧
    quicly_cc_calc_initial_cwnd 1200 = 12000 ∧
    ∀ mps, quicly_cc_calc_initial_cwnd mps
        = min (10 * mps) (max (2 * mps) 14720) :=
  ⟨by decide, by decide, fun mps => rfl⟩

/-- C9: for a CUBIC controller, an on_lost beyond the recovery fence
applies fast convergence: when the current window is below
`w_last_max`, the new `w_last_max` is the window and the new `w_max` is
`cwnd * (1 + beta) / 2` (integer rendering `17 * cwnd / 20`), which is
strictly smaller than the naive `w_max = cwnd` whenever the window is
positive; otherwise both become the window. -/
theorem C9_cubic_fast_convergence (cc : quicly_cc_t) (now : Int)
    (bytes lost_pn next_pn mu : Nat) (h : cc.recovery_end < lost_pn) :
    (cc.cwnd < cc.state.cubic.w_last_max →
      (cubic_on_lost cc now bytes lost_pn next_pn mu).state.cubic.w_last_max
          = cc.cwnd ∧
      (cubic_on_lost cc now bytes lost_pn next_pn mu).state.cubic.w_max
          = 17 * cc.cwnd / 20 ∧
      (0 < cc.cwnd →
        (cubic_on_lost cc now bytes lost_pn next_pn mu).state.cubic.w_max
            < cc.cwnd)) ∧
    (cc.state.cubic.w_last_max ≤ cc.cwnd →
      (cubic_on_lost cc now bytes lost_pn next_pn mu).state.cubic.w_max
          = cc.cwnd ∧
      (cubic_on_lost cc now bytes lost_pn next_pn mu).state.cubic.w_last_max
          = cc.cwnd) := by
  unfold cubic_on_lost
  rw [if_neg (by omega)]
  constructor
  · intro hlt
    refine ⟨?_, ?_, fun hpos => ?_⟩ <;> simp [hlt] <;> omega
  · intro hge
    have hnlt : ¬ cc.cwnd < cc.state.cubic.w_last_max := by omega
    refine ⟨?_, ?_⟩ <;> simp [hnlt]

/-- Witness for C9: a second congestion event at a window (140) below
the first event's `w_max` (200) yields `w_max = 119 < 140`. -/
theorem C9_cubic_fast_convergence_witness :
    (cubic_on_lost sampleCubicCC 5 100 15 20 1200).state.cubic.w_max
        < sampleCubicCC.cwnd :=
  ((C9_cubic_fast_convergence sampleCubicCC 5 100 15 20 1200 (by decide)).1
    (by decide)).2.2 (by decide)

/-- C10: `quicly_cc_init` first zeroes the whole controller record,
copies the configured type verbatim, and selects the CUBIC
implementation table exactly when the type is `CC_CUBIC`, every other
value (via the switch's default label) selecting the Reno table, so
the implementation pointer is never left null. -/
theorem C10_cc_init_dispatch (conf : quicly_cc_conf_t) :
    (quicly_cc_init_pre conf).type = conf.type ∧
    (quicly_cc_init_pre conf).cwnd = 0 ∧
    (quicly_cc_init_pre conf).ssthresh = 0 ∧
    (quicly_cc_init_pre conf).recovery_end = 0 ∧
    (quicly_cc_init_pre conf).state = zero_cc.state ∧
    (quicly_cc_init_pre conf).cwnd_initial = 0 ∧
    (quicly_cc_init_pre conf).cwnd_exiting_slow_start = 0 ∧
    (quicly_cc_init_pre conf).cwnd_minimum = 0 ∧
    (quicly_cc_init_pre conf).cwnd_maximum = 0 ∧
    (quicly_cc_init_pre conf).num_loss_episodes = 0 ∧
    ((quicly_cc_init_pre conf).impl = some CcAlg.cubic ↔ conf.type = CC_CUBIC) ∧
    (conf.type ≠ CC_CUBIC → (quicly_cc_init_pre conf).impl = some CcAlg.reno) ∧
    (quicly_cc_init_pre conf).impl ≠ none ∧
    (∀ i a b, (quicly_cc_init conf i a b).type = conf.type ∧
      (quicly_cc_init conf i a b).impl = (quicly_cc_init_pre conf).impl) := by
  unfold quicly_cc_init quicly_cc_init_pre cc_alg_init zero_cc select_impl
  by_cases hc : conf.type = CC_CUBIC <;>
    simp [hc]

/-- Witness for C10: the switch maps `CC_RENO_MODIFIED`, `CC_CUBIC`,
and the out-of-enumeration value 7 as the claim states. -/
theorem C10_cc_init_dispatch_witness :
    (quicly_cc_init_pre ⟨CC_RENO_MODIFIED⟩).impl = some CcAlg.reno ∧
    (quicly_cc_init_pre ⟨CC_CUBIC⟩).impl = some CcAlg.cubic ∧
    (quicly_cc_init_pre ⟨7⟩).impl = some CcAlg.reno :=
  ⟨(C10_cc_init_dispatch ⟨CC_RENO_MODIFIED⟩).2.2.2.2.2.2.2.2.2.2.2.1 (by decide),
   (C10_cc_init_dispatch ⟨CC_CUBIC⟩).2.2.2.2.2.2.2.2.2.2.1.mpr (by decide),
   (C10_cc_init_dispatch ⟨7⟩).2.2.2.2.2.2.2.2.2.2.2.1 (by decide)⟩

/-! ### Claim theorems for the peer-CID tracker -/

/-- C4: a tracker whose table is full of distinct active sequences
rejects the registration of a new distinct, non-stale sequence with the
(nonzero) connection-ID-limit transport error, mutating nothing; and
from an empty tracker the first L distinct registrations all return 0
and occupy L slots. -/
theorem C4_capacity_enforcement :
    (∀ (set : quicly_received_cid_set_t) (s : Nat) (cid srt : List Nat),
      set.cids.length = QUICLY_LOCAL_ACTIVE_CONNECTION_ID_LIMIT →
      (∀ c ∈ set.cids, c.is_active = true) →
      (set.cids.map (fun c => c.sequence)).Nodup →
      (∀ c ∈ set.cids, c.sequence ≠ s) →
      isStale set s = false →
      quicly_received_cid_register set s cid srt
        = (QUICLY_TRANSPORT_ERROR_CONNECTION_ID_LIMIT, set)) ∧
    QUICLY_TRANSPORT_ERROR_CONNECTION_ID_LIMIT ≠ 0 ∧
    (∀ (s1 s2 s3 s4 : Nat) (cid srt : List Nat),
      s1 ≠ s2 → s1 ≠ s3 → s1 ≠ s4 → s2 ≠ s3 → s2 ≠ s4 → s3 ≠ s4 →
      (registerAll quicly_received_cid_init [s1, s2, s3, s4] cid srt).1
          = [0, 0, 0, 0] ∧
      countActive
        (registerAll quicly_received_cid_init [s1, s2, s3, s4] cid srt).2.cids
          = 4) := by
  refine ⟨?_, by decide, ?_⟩
  · intro set s cid srt hlen hact hnodup hne hstale
    have hdup : isDuplicate set s = false := by
      unfold isDuplicate
      rw [List.any_eq_false]
      intro c hc
      simp [hne c hc]
    have hfree : hasFreeSlot set = false := by
      unfold hasFreeSlot
      rw [List.any_eq_false]
      intro c hc
      simp [hact c hc]
    unfold quicly_received_cid_register
    rw [hstale, hdup, hfree]
    simp
  · intro s1 s2 s3 s4 cid srt h12 h13 h14 h23 h24 h34
    have hinit : quicly_received_cid_init.cids
        = [clearedSlot, clearedSlot, clearedSlot, clearedSlot] := rfl
    have e12 : (s1 == s2) = false := beq_eq_false_iff_ne.mpr h12
    have e13 : (s1 == s3) = false := beq_eq_false_iff_ne.mpr h13
    have e14 : (s1 == s4) = false := beq_eq_false_iff_ne.mpr h14
    have e23 : (s2 == s3) = false := beq_eq_false_iff_ne.mpr h23
    have e24 : (s2 == s4) = false := beq_eq_false_iff_ne.mpr h24
    have e34 : (s3 == s4) = false := beq_eq_false_iff_ne.mpr h34
    constructor <;>
      simp [registerAll, quicly_received_cid_register, isStale, isDuplicate,
            hasFreeSlot, occupyFirstFree, quicly_received_cid_init, clearedSlot,
            QUICLY_LOCAL_ACTIVE_CONNECTION_ID_LIMIT, List.replicate,
            countActive, e12, e13, e14, e23, e24, e34]

/-- Witness for C4: the full tracker {1,2,3,5} rejects sequence 9
without mutation, and four distinct registrations from an empty tracker
all succeed. -/
theorem C4_capacity_enforcement_witness :
    quicly_received_cid_register sampleCidSet 9 [9] [0]
        = (QUICLY_TRANSPORT_ERROR_CONNECTION_ID_LIMIT, sampleCidSet) ∧
    (registerAll quicly_received_cid_init [10, 11, 12, 13] [9] [0]).1
        = [0, 0, 0, 0] :=
  ⟨C4_capacity_enforcement.1 sampleCidSet 9 [9] [0] (by decide) (by decide)
      (by decide) (by decide) (by decide),
   (C4_capacity_enforcement.2.2 10 11 12 13 [9] [0] (by decide) (by decide)
      (by decide) (by decide) (by decide) (by decide)).1⟩

/-- C5: a registration whose sequence is already held by an active slot,
or is below the smallest already-retired sequence, returns 0 without
mutation; registering the same (sequence, cid) pair twice from an empty
tracker succeeds both times and leaves exactly one slot occupied. -/
theorem C5_register_idempotent :
    (∀ (set : quicly_received_cid_set_t) (s : Nat) (cid srt : List Nat),
      isDuplicate set s = true →
      quicly_received_cid_register set s cid srt = (0, set)) ∧
    (∀ (set : quicly_received_cid_set_t) (s : Nat) (cid srt : List Nat),
      isStale set s = true →
      quicly_received_cid_register set s cid srt = (0, set)) ∧
    (∀ (s : Nat) (cid srt : List Nat),
      (registerAll quicly_received_cid_init [s, s] cid srt).1 = [0, 0] ∧
      (registerAll quicly_received_cid_init [s, s] cid srt).2
        = (quicly_received_cid_register quicly_received_cid_init s cid srt).2 ∧
      countActive
        (registerAll quicly_received_cid_init [s, s] cid srt).2.cids = 1) := by
  refine ⟨?_, ?_, ?_⟩
  · intro set s cid srt h
    unfold quicly_received_cid_register
    rw [h]
    simp
  · intro set s cid srt h
    unfold quicly_received_cid_register
    rw [h]
    simp
  · intro s cid srt
    refine ⟨?_, ?_, ?_⟩ <;>
      simp [registerAll, quicly_received_cid_register, isStale, isDuplicate,
            hasFreeSlot, occupyFirstFree, quicly_received_cid_init, clearedSlot,
            QUICLY_LOCAL_ACTIVE_CONNECTION_ID_LIMIT, List.replicate,
            countActive]

/-- Witness for C5: a duplicate of active sequence 2 and a stale
sequence 1 are both absorbed as success without mutation. -/
theorem C5_register_idempotent_witness :
    quicly_received_cid_register sampleCidSet 2 [2] [0] = (0, sampleCidSet) ∧
    quicly_received_cid_register sampleStaleSet 1 [1] [0]
        = (0, sampleStaleSet) ∧
    countActive (registerAll quicly_received_cid_init [6, 6] [6] [0]).2.cids
        = 1 :=
  ⟨C5_register_idempotent.1 sampleCidSet 2 [2] [0] (by decide),
   C5_register_idempotent.2.1 sampleStaleSet 1 [1] [0] (by decide),
   (C5_register_idempotent.2.2 6 [6] [0]).2.2⟩

/-- C6: `unregister_prior_to` retires exactly the active slots whose
sequence is below the bound, returns their number, and writes the
retired sequences packed from index 0 in ascending slot-index order;
on the concrete state with active sequences {1,2,3,5} and bound 4 it
returns 3 with output [1,2,3] and leaves sequence 5 active. -/
theorem C6_unregister_prior_to_exact (set : quicly_received_cid_set_t) (n : Nat) :
    (quicly_received_cid_unregister_prior_to set n).1.2
        = (set.cids.filter (fun c => c.is_active && decide (c.sequence < n))).map
            (fun c => c.sequence) ∧
    (quicly_received_cid_unregister_prior_to set n).1.1
        = ((set.cids.filter
              (fun c => c.is_active && decide (c.sequence < n))).map
            (fun c => c.sequence)).length ∧
    (∀ s, activeSeqIn (quicly_received_cid_unregister_prior_to set n).2.cids s
        ↔ (activeSeqIn set.cids s ∧ n ≤ s)) ∧
    (quicly_received_cid_unregister_prior_to sampleCidSet 4).1.1 = 3 ∧
    (quicly_received_cid_unregister_prior_to sampleCidSet 4).1.2 = [1, 2, 3] ∧
    activeSeqIn (quicly_received_cid_unregister_prior_to sampleCidSet 4).2.cids 5 ∧
    ¬ activeSeqIn (quicly_received_cid_unregister_prior_to sampleCidSet 4).2.cids 1 := by
  refine ⟨?_, ?_, fun s => ?_, by decide, by decide, by decide, by decide⟩
  · exact retireScan_snd n set.cids
  · unfold quicly_received_cid_unregister_prior_to
    dsimp only
    rw [retireScan_snd]
  · unfold quicly_received_cid_unregister_prior_to
    dsimp only
    rw [promoteIfNeeded_activeSeq, retireScan_fst_activeSeq]

/-- C7: unregistering the sequence held by slot 0 (the in-use CID)
succeeds and promotes another active slot into the in-use position
exactly when some other active CID exists; with no other active CID it
returns 1 and mutates nothing. -/
theorem C7_unregister_in_use (set : quicly_received_cid_set_t) (s : Nat)
    (c0 : quicly_received_cid_t) (rest : List quicly_received_cid_t)
    (hcids : set.cids = c0 :: rest) (hact : c0.is_active = true)
    (hseq : c0.sequence = s) :
    ((∃ c ∈ rest, c.is_active = true) →
      (quicly_received_cid_unregister set s).1 = 0 ∧
      ∃ b rest2, (quicly_received_cid_unregister set s).2.cids = b :: rest2 ∧
        b.is_active = true ∧ b ∈ rest) ∧
    ((∀ c ∈ rest, c.is_active = false) →
      quicly_received_cid_unregister set s = (1, set)) := by
  have hcond : (c0.is_active && c0.sequence == s) = true := by
    simp [hact, hseq]
  constructor
  · rintro ⟨c, hc, hca⟩
    cases hm : findMinActive rest with
    | none =>
      have := findMinActive_none rest hm c hc
      rw [hca] at this
      cases this
    | some b =>
      obtain ⟨hbmem, hbact⟩ := findMinActive_mem rest b hm
      unfold quicly_received_cid_unregister
      rw [hcids]
      simp only [hcond, if_true, hm]
      exact ⟨by simp, b, clearFirstSeq rest b.sequence, by simp, hbact, hbmem⟩
  · intro hall
    cases hm : findMinActive rest with
    | some b =>
      obtain ⟨hbmem, hbact⟩ := findMinActive_mem rest b hm
      rw [hall b hbmem] at hbact
      cases hbact
    | none =>
      unfold quicly_received_cid_unregister
      rw [hcids]
      simp only [hcond, if_true, hm]

/-- Witness for C7: retiring in-use sequence 7 with active sequence 9
available succeeds and promotes an active slot; retiring it with no
other active CID fails without mutation. -/
theorem C7_unregister_in_use_witness :
    ((quicly_received_cid_unregister sampleCidSet2 7).1 = 0 ∧
      ∃ b rest2,
        (quicly_received_cid_unregister sampleCidSet2 7).2.cids = b :: rest2 ∧
        b.is_active = true ∧ b ∈ [mkCidSlot 9, clearedSlot, clearedSlot]) ∧
    quicly_received_cid_unregister sampleCidSet3 7 = (1, sampleCidSet3) :=
  ⟨(C7_unregister_in_use sampleCidSet2 7 (mkCidSlot 7)
      [mkCidSlot 9, clearedSlot, clearedSlot] rfl (by decide) rfl).1
      (by decide),
   (C7_unregister_in_use sampleCidSet3 7 (mkCidSlot 7)
      [clearedSlot, clearedSlot, clearedSlot] rfl (by decide) rfl).2
      (by decide)⟩

end Quicly
